import Mathlib

/-!
Shallow embedding of the reading-session analytics and adaptive-content
reconciliation engine of the Reader component (`src/unnamed/part_000`).

Times (`Date.now()` values, dwell times) are modelled as `ℤ` (epoch
milliseconds), scroll offsets and speeds as `ℚ`, and JavaScript `Math.round`
as Mathlib's `round` (both are `⌊x + 1/2⌋`).  A JavaScript division that can
produce `NaN` (`0 / 0` on empty aggregates) is modelled with `Option ℚ`,
`none` standing for the non-finite result.
-/

/-- The four reading-speed labels of `readingClassification`
(`'fast-skim' | 'skim' | 'normal' | 'slow'`, `src/unnamed/part_000` line 224). -/
inductive Classification where
  | fastSkim
  | skim
  | normal
  | slow
  deriving DecidableEq, Repr

/-- The `AdaptiveContent` interface (`src/unnamed/part_000` lines 15-20). -/
structure AdaptiveContent where
  version : String
  text : String
  highlighted_sentences : List String
  emphasis_type : Option String
  deriving DecidableEq, Repr

/-- The `ContentSegment` interface (`src/unnamed/part_000` lines 22-29). -/
structure ContentSegment where
  text : String
  type : String
  condensed_text : Option String
  key_sentences : List String
  start_pos : Nat
  end_pos : Nat
  deriving DecidableEq, Repr

/-- The `AnalyzedParagraph` interface (`src/unnamed/part_000` lines 31-38). -/
structure AnalyzedParagraph where
  index : Nat
  original_text : String
  segments : List ContentSegment
  reading_difficulty : ℚ
  importance_score : ℚ
  primary_type : String
  deriving DecidableEq, Repr

/-- The `Paragraph` interface (`src/unnamed/part_000` lines 4-13). -/
structure Paragraph where
  text : String
  index : Nat
  isLoading : Bool
  hasError : Bool
  readingClassification : Option Classification
  adaptiveContent : Option AdaptiveContent
  contentType : Option String
  importanceScore : Option ℚ
  deriving DecidableEq, Repr

/-- The `SectionTimingData` interface (`src/unnamed/part_000` lines 40-48). -/
structure SectionTimingData where
  paragraphIndex : Nat
  startTime : ℤ
  endTime : Option ℤ
  totalTime : ℤ
  scrollBehavior : String
  isVisible : Bool
  viewportDwellTime : ℤ
  deriving DecidableEq, Repr

/-- One entry of `readingSession.scrollEvents`
(`src/unnamed/part_000` lines 54-58). -/
structure ScrollSample where
  timestamp : ℤ
  scrollTop : ℚ
  scrollSpeed : ℚ
  deriving DecidableEq, Repr

/-- The scroll-tracking state: the `scrollEvents` buffer of the session plus
the `lastScrollTime` / `lastScrollTop` refs (`src/unnamed/part_000`
lines 87-88). -/
structure ScrollTrackerState where
  scrollEvents : List ScrollSample
  lastScrollTime : ℤ
  lastScrollTop : ℚ
  deriving DecidableEq, Repr

/-- The optional personal baseline read from `userData`
(`userData.normal_wpm`, `userData.skimming_wpm`,
`src/unnamed/part_000` lines 226-229).  A value is present exactly when the
truthiness test `userData?.normal_wpm && userData?.skimming_wpm` passes. -/
structure UserBaseline where
  normal_wpm : ℚ
  skimming_wpm : ℚ
  deriving DecidableEq, Repr

/-- `String.prototype.split` against the regular expression written `/\\s+/`
in the source (`src/unnamed/part_000` line 217).  That regex matches one
literal backslash followed by one or more letters `s`; the splitter walks the
character list, emitting the accumulated piece whenever such a match starts
and swallowing the following run of `s` characters (the `Bool` flag records
that the scanner is inside the `s`-run of a match, so further `s` characters
extend the separator). -/
def splitBSGo : List Char → List Char → Bool → List (List Char)
  | [], acc, _ => [acc.reverse]
  | 's' :: rest, acc, true => splitBSGo rest acc true
  | '\\' :: 's' :: rest, acc, _ => acc.reverse :: splitBSGo rest [] true
  | c :: rest, acc, _ => splitBSGo rest (c :: acc) false

/-- `text.split(/\\s+/).length` as the source computes it
(`src/unnamed/part_000` line 217). -/
def wordCountJs (s : String) : Nat := (splitBSGo s.toList [] false).length

/-- Helper for `specWordCount`: counts maximal runs of non-whitespace
characters; the flag records whether the previous character was
non-whitespace. -/
def countWordRuns : List Char → Bool → Nat
  | [], _ => 0
  | c :: rest, inWord =>
    if c.isWhitespace then countWordRuns rest false
    else (if inWord then 0 else 1) + countWordRuns rest true

/-- Modelled from the spec: the word count described by §4.2 of the spec,
"wordCount is computed by splitting on runs of whitespace" — the number of
maximal runs of non-whitespace characters.  Declared only to compare the
spec's wording with the source's `wordCountJs`. -/
def specWordCount (s : String) : Nat := countWordRuns s.toList false

/-- `calculateSectionWPM` (`src/unnamed/part_000` lines 213-220): returns 0
when the paragraph is missing, its text is empty (falsy), or the dwell time
is 0; otherwise `Math.round(wordCount / (dwellTime / 60000))`. -/
def calculateSectionWPM (paragraphs : List Paragraph) (paragraphIndex : Nat)
    (dwellTime : ℤ) : ℤ :=
  match paragraphs.find? (fun p => p.index == paragraphIndex) with
  | none => 0
  | some p =>
    if p.text = "" ∨ dwellTime = 0 then 0
    else round ((wordCountJs p.text : ℚ) / ((dwellTime : ℚ) / 60000))

/-- The classification decision of `updateParagraphClassification`
(`src/unnamed/part_000` lines 223-243): personal thresholds with `≥` when a
baseline is present, generic thresholds with strict `>` otherwise. -/
def classifyWpm (userData : Option UserBaseline) (wpm : ℚ) : Classification :=
  match userData with
  | some u =>
    if u.skimming_wpm * 1.5 ≤ wpm then .fastSkim
    else if u.normal_wpm * 1.2 ≤ wpm then .skim
    else if u.normal_wpm * 0.7 ≤ wpm then .normal
    else .slow
  | none =>
    if 300 < wpm then .fastSkim
    else if 150 < wpm then .skim
    else if 50 < wpm then .normal
    else .slow

/-- The state update of `updateParagraphClassification`
(`src/unnamed/part_000` lines 245-251): stamp the computed classification on
the paragraph with the given index. -/
def updateParagraphClassification (paragraphs : List Paragraph)
    (userData : Option UserBaseline) (paragraphIndex : Nat) (wpm : ℚ) :
    List Paragraph :=
  paragraphs.map (fun p =>
    if p.index == paragraphIndex then
      { p with readingClassification := some (classifyWpm userData wpm) }
    else p)

/-- `list.slice(-n)` on an array: the last `n` elements (all of them when the
list is shorter). -/
def jsSliceLast (n : Nat) (l : List α) : List α := l.drop (l.length - n)

/-- `trackScrollEvent` (`src/unnamed/part_000` lines 285-302): derive the
speed from the offset and time deltas (0 when the time delta is not
positive), append the sample to `scrollEvents.slice(-50)`, and update the
`lastScrollTime` / `lastScrollTop` refs unconditionally. -/
def trackScrollEvent (st : ScrollTrackerState) (now : ℤ) (scrollTop : ℚ) :
    ScrollTrackerState :=
  let timeDelta := now - st.lastScrollTime
  let scrollDelta := |scrollTop - st.lastScrollTop|
  let scrollSpeed := if 0 < timeDelta then scrollDelta / (timeDelta : ℚ) else 0
  { scrollEvents :=
      jsSliceLast 50 st.scrollEvents ++ [⟨now, scrollTop, scrollSpeed⟩],
    lastScrollTime := now,
    lastScrollTop := scrollTop }

/-- Feed a sequence of raw scroll ticks `(now, offset)` through
`trackScrollEvent`. -/
def insertSamples (st : ScrollTrackerState) (ticks : List (ℤ × ℚ)) :
    ScrollTrackerState :=
  ticks.foldl (fun s t => trackScrollEvent s t.1 t.2) st

/-- Modelled from the spec: the scroll-speed formula of §4.3,
`speed = |offset - lastOffset| / max(1, now - lastTimestamp)`.  Declared only
to compare the spec's wording with the source's `trackScrollEvent`. -/
def specScrollSpeed (lastOffset offset : ℚ) (lastTs now : ℤ) : ℚ :=
  |offset - lastOffset| / ((max 1 (now - lastTs) : ℤ) : ℚ)

/-- `startSectionTiming` (`src/unnamed/part_000` lines 182-210): the source
looks up `findIndex(st => st.paragraphIndex === paragraphIndex)`; on a hit it
overwrites that entry's `startTime` with `now` and sets `isVisible`,
otherwise it appends a fresh `SectionTimingData`.  The recursion below
updates the first matching entry in place and appends at the tail when no
entry matches, which is exactly the findIndex-then-update/append behaviour. -/
def startSectionTiming (timings : List SectionTimingData) (paragraphIndex : Nat)
    (now : ℤ) : List SectionTimingData :=
  match timings with
  | [] => [{ paragraphIndex := paragraphIndex, startTime := now, endTime := none,
             totalTime := 0, scrollBehavior := "normal", isVisible := true,
             viewportDwellTime := 0 }]
  | st :: rest =>
    if st.paragraphIndex = paragraphIndex then
      { st with startTime := now, isVisible := true } :: rest
    else st :: startSectionTiming rest paragraphIndex now

/-- The per-entry body of the `map` inside `endSectionTiming`
(`src/unnamed/part_000` lines 258-279).  The second component models the
guarded classifier invocation: when the computed `wpm` is positive the source
calls `updateParagraphClassification(paragraphIndex, wpm)` and
`updateReadingPattern(paragraphIndex, wpm, dwellTime)`; the emitted triple is
`(paragraphIndex, wpm, dwellTime)`. -/
def endStep (paragraphs : List Paragraph) (paragraphIndex : Nat) (now : ℤ)
    (st : SectionTimingData) : SectionTimingData × Option (Nat × ℤ × ℤ) :=
  if st.paragraphIndex = paragraphIndex ∧ st.isVisible = true then
    let dwellTime := now - st.startTime
    let newTotalTime := st.totalTime + dwellTime
    let wpm := calculateSectionWPM paragraphs paragraphIndex newTotalTime
    ({ st with endTime := some now, totalTime := newTotalTime,
               viewportDwellTime := st.viewportDwellTime + dwellTime,
               isVisible := false },
     if 0 < wpm then some (paragraphIndex, wpm, dwellTime) else none)
  else (st, none)

/-- `endSectionTiming` (`src/unnamed/part_000` lines 255-282): map `endStep`
over all timings; the first component is the updated timing list, the second
collects the classifier invocations fired during the close. -/
def endSectionTiming (paragraphs : List Paragraph)
    (timings : List SectionTimingData) (paragraphIndex : Nat) (now : ℤ) :
    List SectionTimingData × List (Nat × ℤ × ℤ) :=
  ((timings.map (endStep paragraphs paragraphIndex now)).map Prod.fst,
   (timings.map (endStep paragraphs paragraphIndex now)).filterMap Prod.snd)

/-- Run a sequence of enter/leave pairs `(enterTime, leaveTime)` for one unit
through `startSectionTiming` / `endSectionTiming`. -/
def runPairs (paragraphs : List Paragraph) (paragraphIndex : Nat)
    (pairs : List (ℤ × ℤ)) (timings : List SectionTimingData) :
    List SectionTimingData :=
  pairs.foldl
    (fun ts p =>
      (endSectionTiming paragraphs (startSectionTiming ts paragraphIndex p.1)
        paragraphIndex p.2).1)
    timings

/-- Run a sequence of raw visibility events for one unit, `(true, t)` an
enter at time `t` and `(false, t)` a leave, collecting every classifier
invocation fired along the way. -/
def runEvents (paragraphs : List Paragraph) (paragraphIndex : Nat)
    (events : List (Bool × ℤ)) :
    List SectionTimingData × List (Nat × ℤ × ℤ) :=
  events.foldl
    (fun st e =>
      if e.1 then (startSectionTiming st.1 paragraphIndex e.2, st.2)
      else
        let r := endSectionTiming paragraphs st.1 paragraphIndex e.2
        (r.1, st.2 ++ r.2))
    ([], [])

/-- The accumulated `totalTime` recorded for a unit (0 when the unit has no
`SectionTimingData`). -/
def totalOf (timings : List SectionTimingData) (paragraphIndex : Nat) : ℤ :=
  ((timings.find? (fun st => st.paragraphIndex == paragraphIndex)).map
    SectionTimingData.totalTime).getD 0

/-- The `isVisible` flag recorded for a unit (`false` when the unit has no
`SectionTimingData`). -/
def visibleOf (timings : List SectionTimingData) (paragraphIndex : Nat) : Bool :=
  ((timings.find? (fun st => st.paragraphIndex == paragraphIndex)).map
    SectionTimingData.isVisible).getD false

/-- The shape a single-unit timing entry takes after a closed interval
`[s, e]` with accumulated total `t`: `startTime = s`, `endTime = e`,
`isVisible = false`, and `viewportDwellTime` mirroring `totalTime`. -/
def mkClosed (paragraphIndex : Nat) (s e t : ℤ) : SectionTimingData :=
  { paragraphIndex := paragraphIndex, startTime := s, endTime := some e,
    totalTime := t, scrollBehavior := "normal", isVisible := false,
    viewportDwellTime := t }

/-- JavaScript division as used by the aggregate averages of the export and
snapshot code: `a / b` is a finite rational only when `b ≠ 0`; `none` stands
for the non-finite IEEE result (in every use below the numerator is 0
whenever the denominator is, so `none` is always `NaN`). -/
def jsDiv (a b : ℚ) : Option ℚ := if b = 0 then none else some (a / b)

/-- One entry of the `sectionAnalytics` array built by `exportAnalyticsData`
(`src/unnamed/part_000` lines 457-466): the stored timing spread together
with the recomputed word count, wpm, and inline fallback classification. -/
structure SectionAnalyticsEntry where
  timing : SectionTimingData
  wordCount : Nat
  wpm : ℤ
  classification : Classification
  deriving DecidableEq, Repr

/-- The `scrollAnalytics` object of the export
(`src/unnamed/part_000` lines 467-471). -/
structure ScrollAnalytics where
  totalScrollEvents : Nat
  avgScrollSpeed : Option ℚ
  scrollPattern : List ScrollSample
  deriving DecidableEq, Repr

/-- The `summary` object of the export
(`src/unnamed/part_000` lines 472-476). -/
structure ReportSummary where
  totalSections : Nat
  avgDwellTime : Option ℚ
  avgWPM : Option ℚ
  deriving DecidableEq, Repr

/-- The analytics report document built by `exportAnalyticsData`
(`src/unnamed/part_000` lines 452-477); the session-constant fields
(`sessionId`, `sessionDuration`, `timestamp`) are omitted. -/
structure AnalyticsReport where
  sectionAnalytics : List SectionAnalyticsEntry
  scrollAnalytics : ScrollAnalytics
  summary : ReportSummary
  deriving DecidableEq, Repr

/-- `exportAnalyticsData` (`src/unnamed/part_000` lines 452-488): per-section
wpm and classification are recomputed from the stored `totalTime`; every
average is a plain `reduce(...) / length` with no emptiness guard, so an
empty list makes it `0 / 0`. -/
def exportAnalyticsData (paragraphs : List Paragraph)
    (timings : List SectionTimingData) (events : List ScrollSample) :
    AnalyticsReport :=
  { sectionAnalytics := timings.map (fun st =>
      let wpm := calculateSectionWPM paragraphs st.paragraphIndex st.totalTime
      { timing := st,
        wordCount :=
          match paragraphs.find? (fun p => p.index == st.paragraphIndex) with
          | some p => wordCountJs p.text
          | none => 0,
        wpm := wpm,
        classification :=
          if 300 < wpm then .fastSkim
          else if 150 < wpm then .skim
          else if 50 < wpm then .normal
          else .slow }),
    scrollAnalytics :=
      { totalScrollEvents := events.length,
        avgScrollSpeed :=
          jsDiv (events.map (fun se => se.scrollSpeed)).sum (events.length : ℚ),
        scrollPattern := events },
    summary :=
      { totalSections := timings.length,
        avgDwellTime :=
          jsDiv (timings.map (fun st => (st.totalTime : ℚ))).sum
            (timings.length : ℚ),
        avgWPM :=
          jsDiv (timings.map (fun st =>
              ((calculateSectionWPM paragraphs st.paragraphIndex st.totalTime :
                ℤ) : ℚ))).sum
            (timings.length : ℚ) } }

/-- The object written to localStorage by the 2-second snapshot effect
(`src/unnamed/part_000` lines 494-501); the constant `sessionId` is
omitted. -/
structure SnapshotData where
  totalSections : Nat
  avgDwellTime : Option ℚ
  avgWPM : Option ℚ
  recentScrollEvents : List ScrollSample
  lastUpdate : ℤ
  deriving DecidableEq, Repr

/-- The body of the snapshot interval effect
(`src/unnamed/part_000` lines 491-511): a snapshot is produced only when
`sectionTimings.length > 0`; otherwise nothing is written. -/
def periodicSnapshot (paragraphs : List Paragraph)
    (timings : List SectionTimingData) (events : List ScrollSample)
    (now : ℤ) : Option SnapshotData :=
  if 0 < timings.length then
    some
      { totalSections := timings.length,
        avgDwellTime :=
          jsDiv (timings.map (fun st => (st.totalTime : ℚ))).sum
            (timings.length : ℚ),
        avgWPM :=
          jsDiv (timings.map (fun st =>
              ((calculateSectionWPM paragraphs st.paragraphIndex st.totalTime :
                ℤ) : ℚ))).sum
            (timings.length : ℚ),
        recentScrollEvents := jsSliceLast 10 events,
        lastUpdate := now }
  else none

/-- The fallback `AdaptiveContent` synthesized by `loadParagraph` when the
adaptive fetch fails (`src/unnamed/part_000` lines 107-113). -/
def fallbackAdaptive (basicText : String) (analyzed : AnalyzedParagraph) :
    AdaptiveContent :=
  { version := "full", text := basicText, highlighted_sentences := [],
    emphasis_type := some analyzed.primary_type }

/-- `loadParagraph` (`src/unnamed/part_000` lines 91-140), as a function of
the outcomes of the three fetches.  `none` for `basicFetch` or
`analyzedFetch` is the outer catch (the unit is marked failed); a failed
`adaptiveFetch` is recovered by synthesizing `fallbackAdaptive` from the
fetched raw text and analysis. -/
def loadParagraph (paragraphs : List Paragraph) (index : Nat)
    (basicFetch : Option String) (analyzedFetch : Option AnalyzedParagraph)
    (adaptiveFetch : Option AdaptiveContent) : List Paragraph :=
  match basicFetch, analyzedFetch with
  | some text, some analyzed =>
    let adaptiveContent :=
      match adaptiveFetch with
      | some ac => ac
      | none => fallbackAdaptive text analyzed
    paragraphs.map (fun p =>
      if p.index == index then
        { p with text := text, isLoading := false, hasError := false,
                 adaptiveContent := some adaptiveContent,
                 contentType := some analyzed.primary_type,
                 importanceScore := some analyzed.importance_score }
      else p)
  | _, _ =>
    paragraphs.map (fun p =>
      if p.index == index then { p with isLoading := false, hasError := true }
      else p)

/-- `reloadAdaptiveContent` (`src/unnamed/part_000` lines 418-437): iterate
over the units that are loaded (`!isLoading && !hasError`); a successful
fetch replaces that unit's `adaptiveContent` wholesale, a failed fetch only
logs and leaves the unit untouched. -/
def reloadAdaptiveContent (paragraphs : List Paragraph)
    (fetch : Nat → Option AdaptiveContent) : List Paragraph :=
  (paragraphs.filter (fun p => !p.isLoading && !p.hasError)).foldl
    (fun acc p =>
      match fetch p.index with
      | some ac =>
        acc.map (fun q =>
          if q.index == p.index then { q with adaptiveContent := some ac }
          else q)
      | none => acc)
    paragraphs

/-- Every loaded unit has a defined `adaptiveContent`. -/
def adaptiveDefined (paragraphs : List Paragraph) : Prop :=
  ∀ p ∈ paragraphs,
    p.isLoading = false → p.hasError = false → p.adaptiveContent.isSome = true

/-- A loaded unit holding the spec's six-word scenario text. -/
def sixWordParagraph : Paragraph :=
  { text := "one two three four five six", index := 0, isLoading := false,
    hasError := false, readingClassification := none, adaptiveContent := none,
    contentType := none, importanceScore := none }

/-- A loaded unit with a short non-empty text, used for the enter/leave
scenarios. -/
def helloParagraph : Paragraph :=
  { text := "hello", index := 0, isLoading := false, hasError := false,
    readingClassification := none, adaptiveContent := none,
    contentType := none, importanceScore := none }

/-- Fifty-two scroll ticks at one-millisecond spacing and a constant
offset: tick `i` (1-based) happens at time `i`. -/
def tick52 : List (ℤ × ℚ) :=
  (List.range 52).map (fun i => (((i : ℤ) + 1), (0 : ℚ)))

/-- A non-full `AdaptiveContent` a unit may be displaying before a
reconciliation pass. -/
def summaryContent : AdaptiveContent :=
  { version := "summary", text := "short", highlighted_sentences := [],
    emphasis_type := none }

/-- An analysis result for the fallback-synthesis scenarios. -/
def analyzedDialogue : AnalyzedParagraph :=
  { index := 0, original_text := "raw text", segments := [],
    reading_difficulty := 0, importance_score := 0,
    primary_type := "dialogue" }

/-- A unit whose raw text has loaded and which currently displays
`summaryContent`. -/
def loadedParagraph : Paragraph :=
  { text := "raw text", index := 0, isLoading := false, hasError := false,
    readingClassification := none, adaptiveContent := some summaryContent,
    contentType := some "dialogue", importanceScore := none }

/-- A closed (not visible) timing entry with some accumulated total. -/
def closedTiming7 : SectionTimingData :=
  { paragraphIndex := 0, startTime := 100, endTime := some 107, totalTime := 7,
    scrollBehavior := "normal", isVisible := false, viewportDwellTime := 7 }

/-- An open (visible) timing entry that started at time 100. -/
def openTiming100 : SectionTimingData :=
  { paragraphIndex := 0, startTime := 100, endTime := none, totalTime := 0,
    scrollBehavior := "normal", isVisible := true, viewportDwellTime := 0 }

/-- C1: the guard behaviour of `calculateSectionWPM` matches the claim, but
the word count does not: the source splits on the regex written `/\\s+/`,
which matches a literal backslash followed by letters `s`, not runs of
whitespace.  For the six-word scenario text the source therefore computes a
word count of 1 and a wpm of `round(1 / (1200 / 60000)) = 50`, not the 300
the claim requires. -/
theorem calculateSectionWPM_word_split_bug :
    calculateSectionWPM [sixWordParagraph] 0 1200 = 50 ∧
    calculateSectionWPM [sixWordParagraph] 0 1200 ≠ 300 ∧
    wordCountJs "one two three four five six" = 1 ∧
    specWordCount "one two three four five six" = 6 ∧
    round ((specWordCount "one two three four five six" : ℚ) /
      ((1200 : ℚ) / 60000)) = 300 := by
  have hw : wordCountJs "one two three four five six" = 1 := by decide
  have hs : specWordCount "one two three four five six" = 6 := by decide
  have hfind : ([sixWordParagraph].find? (fun p => p.index == 0)) =
      some sixWordParagraph := by decide
  have hc : calculateSectionWPM [sixWordParagraph] 0 1200 = 50 := by
    unfold calculateSectionWPM
    rw [hfind]
    have hcond : ¬(sixWordParagraph.text = "" ∨ (1200 : ℤ) = 0) := by
      rw [not_or]
      exact ⟨by decide, by norm_num⟩
    change (if sixWordParagraph.text = "" ∨ (1200 : ℤ) = 0 then 0
      else round ((wordCountJs sixWordParagraph.text : ℚ) /
        (((1200 : ℤ) : ℚ) / 60000))) = 50
    rw [if_neg hcond, show sixWordParagraph.text = "one two three four five six"
      from rfl, hw]
    norm_num
  refine ⟨hc, by rw [hc]; norm_num, hw, hs, ?_⟩
  rw [hs]
  norm_num

/-- C2: `classifyWpm` is total and partitions its domain exactly as claimed:
with a baseline the four labels are characterized by the inclusive `≥`
thresholds `skimWpm*1.5`, `normalWpm*1.2`, `normalWpm*0.7` taken in order;
without a baseline by the strict `>` thresholds 300, 150, 50; and a wpm of
exactly 300 classifies as skim in fallback mode. -/
theorem classifyWpm_partition (u : UserBaseline) (wpm : ℚ) :
    (classifyWpm (some u) wpm = .fastSkim ↔ u.skimming_wpm * 1.5 ≤ wpm) ∧
    (classifyWpm (some u) wpm = .skim ↔
      wpm < u.skimming_wpm * 1.5 ∧ u.normal_wpm * 1.2 ≤ wpm) ∧
    (classifyWpm (some u) wpm = .normal ↔
      wpm < u.skimming_wpm * 1.5 ∧ wpm < u.normal_wpm * 1.2 ∧
        u.normal_wpm * 0.7 ≤ wpm) ∧
    (classifyWpm (some u) wpm = .slow ↔
      wpm < u.skimming_wpm * 1.5 ∧ wpm < u.normal_wpm * 1.2 ∧
        wpm < u.normal_wpm * 0.7) ∧
    (classifyWpm none wpm = .fastSkim ↔ 300 < wpm) ∧
    (classifyWpm none wpm = .skim ↔ wpm ≤ 300 ∧ 150 < wpm) ∧
    (classifyWpm none wpm = .normal ↔ wpm ≤ 300 ∧ wpm ≤ 150 ∧ 50 < wpm) ∧
    (classifyWpm none wpm = .slow ↔ wpm ≤ 300 ∧ wpm ≤ 150 ∧ wpm ≤ 50) ∧
    classifyWpm none 300 = Classification.skim := by
  have hb1 : classifyWpm (some u) wpm = .fastSkim ↔
      u.skimming_wpm * 1.5 ≤ wpm := by
    simp only [classifyWpm]; split_ifs <;> simp_all [not_le]
  have hb2 : classifyWpm (some u) wpm = .skim ↔
      wpm < u.skimming_wpm * 1.5 ∧ u.normal_wpm * 1.2 ≤ wpm := by
    simp only [classifyWpm]; split_ifs <;> simp_all [not_le]
  have hb3 : classifyWpm (some u) wpm = .normal ↔
      wpm < u.skimming_wpm * 1.5 ∧ wpm < u.normal_wpm * 1.2 ∧
        u.normal_wpm * 0.7 ≤ wpm := by
    simp only [classifyWpm]; split_ifs <;> simp_all [not_le]
  have hb4 : classifyWpm (some u) wpm = .slow ↔
      wpm < u.skimming_wpm * 1.5 ∧ wpm < u.normal_wpm * 1.2 ∧
        wpm < u.normal_wpm * 0.7 := by
    simp only [classifyWpm]; split_ifs <;> simp_all [not_le]
  have hf1 : classifyWpm none wpm = .fastSkim ↔ 300 < wpm := by
    simp only [classifyWpm]; split_ifs <;> simp_all [not_lt]
  have hf2 : classifyWpm none wpm = .skim ↔ wpm ≤ 300 ∧ 150 < wpm := by
    simp only [classifyWpm]; split_ifs <;> simp_all [not_lt]
  have hf3 : classifyWpm none wpm = .normal ↔
      wpm ≤ 300 ∧ wpm ≤ 150 ∧ 50 < wpm := by
    simp only [classifyWpm]; split_ifs <;> simp_all [not_lt]
  have hf4 : classifyWpm none wpm = .slow ↔
      wpm ≤ 300 ∧ wpm ≤ 150 ∧ wpm ≤ 50 := by
    simp only [classifyWpm]; split_ifs <;> simp_all [not_lt]
  have h300 : classifyWpm none (300 : ℚ) = Classification.skim := by
    simp only [classifyWpm]; norm_num
  exact ⟨hb1, hb2, hb3, hb4, hf1, hf2, hf3, hf4, h300⟩

set_option maxRecDepth 4000 in
/-- C3 counterexample: from an empty buffer, 52 recorded samples leave the
buffer holding 51 entries, not 50 — `slice(-50)` keeps the last 50 existing
samples and the new one is appended on top of them, so the claimed 50-entry
cap (and the claimed final content, samples 3..52) is wrong. -/
theorem scrollBuffer_52_counterexample :
    (insertSamples ⟨[], 0, 0⟩ tick52).scrollEvents.length = 51 ∧
    ¬ (insertSamples ⟨[], 0, 0⟩ tick52).scrollEvents.length ≤ 50 := by
  constructor
  · decide
  · decide

set_option maxRecDepth 4000 in
/-- C3 amended: after any `trackScrollEvent` call the buffer holds at most 51
entries (50 kept by `slice(-50)` plus the appended sample), and after
inserting 52 samples into an empty buffer the buffer equals samples 2..52 in
order (their timestamps being 2..52). -/
theorem scrollBuffer_cap51 (st : ScrollTrackerState) (now : ℤ) (top : ℚ) :
    (trackScrollEvent st now top).scrollEvents.length ≤ 51 ∧
    (insertSamples ⟨[], 0, 0⟩ tick52).scrollEvents.map
        (fun s => s.timestamp) =
      (List.range 51).map (fun i => (i : ℤ) + 2) := by
  constructor
  · simp [trackScrollEvent, jsSliceLast]
    omega
  · decide

/-- C4 counterexample: on a session with zero SectionTimings the export's
summary averages are `0 / 0` — the non-finite `none` (NaN), not the claimed
zero — and likewise the average scroll speed on an empty buffer. -/
theorem export_empty_counterexample :
    (exportAnalyticsData [] [] []).summary.avgDwellTime = none ∧
    (exportAnalyticsData [] [] []).summary.avgWPM = none ∧
    (exportAnalyticsData [] [] []).scrollAnalytics.avgScrollSpeed = none ∧
    (none : Option ℚ) ≠ some 0 := by
  refine ⟨?_, ?_, ?_, by simp⟩ <;> simp [exportAnalyticsData, jsDiv]

/-- C4 amended: with zero SectionTimings `exportAnalyticsData` produces NaN
(modelled `none`) summary averages, and an empty scroll buffer produces a NaN
average scroll speed; the periodic snapshot, by contrast, is skipped entirely
when there are zero SectionTimings, and whenever it is produced its averages
are finite numbers. -/
theorem export_empty_amended (P : List Paragraph) (events : List ScrollSample)
    (timings : List SectionTimingData) (now : ℤ) (h : timings ≠ []) :
    (exportAnalyticsData P [] events).summary.avgDwellTime = none ∧
    (exportAnalyticsData P [] events).summary.avgWPM = none ∧
    (exportAnalyticsData P timings []).scrollAnalytics.avgScrollSpeed = none ∧
    periodicSnapshot P [] events now = none ∧
    ∃ s, periodicSnapshot P timings events now = some s ∧
      s.avgDwellTime.isSome = true ∧ s.avgWPM.isSome = true := by
  have hlen : (timings.length : ℚ) ≠ 0 := by simpa using h
  have hpos : 0 < timings.length := List.length_pos.mpr h
  refine ⟨by simp [exportAnalyticsData, jsDiv],
          by simp [exportAnalyticsData, jsDiv],
          by simp [exportAnalyticsData, jsDiv],
          by simp [periodicSnapshot], ?_⟩
  unfold periodicSnapshot
  rw [if_pos hpos]
  exact ⟨_, rfl, by simp [jsDiv, hlen], by simp [jsDiv, hlen]⟩

/-- C4 amended witness: the amended statement at a concrete one-entry
session. -/
theorem export_empty_amended_witness :
    periodicSnapshot [] [] [] 0 = none ∧
    (periodicSnapshot [] [mkClosed 0 0 0 0] [] 0).isSome = true := by
  have h := export_empty_amended [] [] [mkClosed 0 0 0 0] 0 (by simp)
  obtain ⟨h1, h2, h3, h4, s, h5, h6, h7⟩ := h
  exact ⟨h4, by rw [h5]; rfl⟩

lemma runPairs_step (P : List Paragraph) (idx : Nat) (s0 e0 t s e : ℤ) :
    (endSectionTiming P (startSectionTiming [mkClosed idx s0 e0 t] idx s)
      idx e).1 = [mkClosed idx s e (t + (e - s))] := by
  simp [startSectionTiming, endSectionTiming, endStep, mkClosed]

lemma runPairs_first (P : List Paragraph) (idx : Nat) (s e : ℤ) :
    (endSectionTiming P (startSectionTiming [] idx s) idx e).1 =
      [mkClosed idx s e (e - s)] := by
  simp [startSectionTiming, endSectionTiming, endStep, mkClosed]

lemma runPairs_closed_form (P : List Paragraph) (idx : Nat)
    (pairs : List (ℤ × ℤ)) : ∀ s0 e0 t : ℤ,
    runPairs P idx pairs [mkClosed idx s0 e0 t] =
      [mkClosed idx (pairs.getLastD (s0, e0)).1 (pairs.getLastD (s0, e0)).2
        (t + (pairs.map (fun q => q.2 - q.1)).sum)] := by
  induction pairs with
  | nil => intro s0 e0 t; simp [runPairs]
  | cons p ps ih =>
    intro s0 e0 t
    have hstep : runPairs P idx (p :: ps) [mkClosed idx s0 e0 t] =
        runPairs P idx ps [mkClosed idx p.1 p.2 (t + (p.2 - p.1))] := by
      simp [runPairs, runPairs_step]
    rw [hstep, ih, List.getLastD_cons, List.map_cons, List.sum_cons, add_assoc]

lemma runPairs_from_nil (P : List Paragraph) (idx : Nat) (p : ℤ × ℤ)
    (rest : List (ℤ × ℤ)) :
    runPairs P idx (p :: rest) [] =
      [mkClosed idx ((p :: rest).getLastD p).1 ((p :: rest).getLastD p).2
        (((p :: rest).map (fun q => q.2 - q.1)).sum)] := by
  have hstep : runPairs P idx (p :: rest) [] =
      runPairs P idx rest [mkClosed idx p.1 p.2 (p.2 - p.1)] := by
    simp [runPairs, runPairs_first]
  rw [hstep, runPairs_closed_form, List.getLastD_cons, List.map_cons,
    List.sum_cons]

lemma sum_take_succ_mono (l : List ℤ) (h : ∀ x ∈ l, 0 ≤ x) (k : Nat) :
    (l.take k).sum ≤ (l.take (k + 1)).sum := by
  induction l generalizing k with
  | nil => simp
  | cons a t ih =>
    cases k with
    | zero =>
      simpa using h a (by simp)
    | succ k =>
      simp only [List.take_succ_cons, List.sum_cons]
      exact add_le_add_left (ih (fun x hx => h x (by simp [hx])) k) a

lemma totalOf_single_closed (idx : Nat) (s e t : ℤ) :
    totalOf [mkClosed idx s e t] idx = t := by
  simp [totalOf, mkClosed, List.find?]

lemma visibleOf_single_closed (idx : Nat) (s e t : ℤ) :
    visibleOf [mkClosed idx s e t] idx = false := by
  simp [visibleOf, mkClosed, List.find?]

/-- C5: for a properly alternating sequence of enter/leave pairs on one unit,
`startSectionTiming` / `endSectionTiming` leave a single timing entry whose
`totalTime` is the sum of the dwell deltas `eᵢ - sᵢ`, `isVisible` is false
after the last leave, and `totalTime` is non-decreasing from each prefix of
the sequence to the next. -/
theorem sectionTiming_accumulates_dwell (P : List Paragraph) (idx : Nat)
    (p : ℤ × ℤ) (rest : List (ℤ × ℤ))
    (hmono : ∀ q ∈ p :: rest, q.1 ≤ q.2) :
    totalOf (runPairs P idx (p :: rest) []) idx =
      ((p :: rest).map (fun q => q.2 - q.1)).sum ∧
    visibleOf (runPairs P idx (p :: rest) []) idx = false ∧
    ∀ k : Nat, totalOf (runPairs P idx ((p :: rest).take k) []) idx ≤
      totalOf (runPairs P idx ((p :: rest).take (k + 1)) []) idx := by
  have key : ∀ k : Nat,
      totalOf (runPairs P idx ((p :: rest).take k) []) idx =
        (((p :: rest).map (fun q => q.2 - q.1)).take k).sum := by
    intro k
    cases k with
    | zero => simp [runPairs, totalOf]
    | succ k =>
      rw [List.take_succ_cons, runPairs_from_nil, totalOf_single_closed,
        ← List.map_take, List.take_succ_cons]
  refine ⟨?_, ?_, ?_⟩
  · rw [runPairs_from_nil, totalOf_single_closed]
  · rw [runPairs_from_nil, visibleOf_single_closed]
  · intro k
    rw [key k, key (k + 1)]
    apply sum_take_succ_mono
    intro x hx
    obtain ⟨q, hq, rfl⟩ := List.mem_map.mp hx
    have := hmono q hq
    omega

/-- C5 witness: two closed intervals, 0→500 and 1000→1500, on unit 0 give a
final totalTime of 1000 and a closed (not visible) entry. -/
theorem sectionTiming_accumulates_dwell_witness :
    totalOf (runPairs [] 0 [(0, 500), (1000, 1500)] []) 0 = 1000 ∧
    visibleOf (runPairs [] 0 [(0, 500), (1000, 1500)] []) 0 = false := by
  have h := sectionTiming_accumulates_dwell [] 0 (0, 500) [(1000, 1500)]
    (by decide)
  exact ⟨by simpa using h.1, h.2.1⟩

/-- C6 counterexample: an enter event at time 200 for a unit whose interval
is already open (startTime 100, isVisible true) does not leave the
SectionTiming unchanged — the source unconditionally overwrites `startTime`
with `now` on the existing entry. -/
theorem startSectionTiming_reenter_counterexample :
    startSectionTiming [openTiming100] 0 200 ≠ [openTiming100] ∧
    startSectionTiming [openTiming100] 0 200 =
      [{ openTiming100 with startTime := 200 }] := by
  constructor
  · decide
  · decide

/-- C6 amended: an enter event for a unit with an open interval does not
double-open — no second entry is created and `totalTime`,
`viewportDwellTime`, `endTime` are untouched — but it is not a no-op either:
`startTime` is reset to `now` (and `isVisible` stays true), restarting the
open interval. -/
theorem startSectionTiming_reenter (l1 l2 : List SectionTimingData)
    (st : SectionTimingData) (now : ℤ)
    (h1 : ∀ x ∈ l1, x.paragraphIndex ≠ st.paragraphIndex)
    (h2 : st.isVisible = true) :
    startSectionTiming (l1 ++ st :: l2) st.paragraphIndex now =
      l1 ++ { st with startTime := now, isVisible := true } :: l2 ∧
    (startSectionTiming (l1 ++ st :: l2) st.paragraphIndex now).length =
      (l1 ++ st :: l2).length := by
  have heq : startSectionTiming (l1 ++ st :: l2) st.paragraphIndex now =
      l1 ++ { st with startTime := now, isVisible := true } :: l2 := by
    induction l1 with
    | nil => simp [startSectionTiming]
    | cons a t ih =>
      have ha : a.paragraphIndex ≠ st.paragraphIndex := h1 a (by simp)
      simp only [List.cons_append, startSectionTiming, if_neg ha]
      exact congrArg (fun l => a :: l) (ih (fun x hx => h1 x (by simp [hx])))
  refine ⟨heq, ?_⟩
  rw [heq]
  simp

/-- C6 amended witness: the amended statement at the concrete open entry. -/
theorem startSectionTiming_reenter_witness :
    startSectionTiming [openTiming100] 0 200 =
      [{ openTiming100 with startTime := 200, isVisible := true }] := by
  have h := startSectionTiming_reenter [] [] openTiming100 200
    (by simp) (by decide)
  simpa using h.1

lemma endStep_snd (P : List Paragraph) (idx : Nat) (now : ℤ)
    (st : SectionTimingData) :
    (endStep P idx now st).2 =
      if st.paragraphIndex = idx ∧ st.isVisible = true ∧
          0 < calculateSectionWPM P idx (st.totalTime + (now - st.startTime))
      then some (idx,
        calculateSectionWPM P idx (st.totalTime + (now - st.startTime)),
        now - st.startTime)
      else none := by
  unfold endStep
  by_cases hm : st.paragraphIndex = idx ∧ st.isVisible = true
  · rw [if_pos hm]
    by_cases hw :
        0 < calculateSectionWPM P idx (st.totalTime + (now - st.startTime))
    · rw [if_pos ⟨hm.1, hm.2, hw⟩]
      simp [if_pos hw]
    · rw [if_neg (by rintro ⟨h1, h2, h3⟩; exact hw h3)]
      simp [if_neg hw]
  · rw [if_neg hm, if_neg (by rintro ⟨h1, h2, h3⟩; exact hm ⟨h1, h2⟩)]

lemma wordCountJs_hello : wordCountJs "hello" = 1 := by decide

lemma helloParagraph_find :
    ([helloParagraph].find? (fun p => p.index == 0)) = some helloParagraph := by
  decide

lemma helloParagraph_wpm_500 : calculateSectionWPM [helloParagraph] 0 500 = 120 := by
  unfold calculateSectionWPM
  rw [helloParagraph_find]
  change (if helloParagraph.text = "" ∨ (500 : ℤ) = 0 then 0
    else round ((wordCountJs helloParagraph.text : ℚ) /
      (((500 : ℤ) : ℚ) / 60000))) = 120
  rw [if_neg (by rw [not_or]; exact ⟨by decide, by norm_num⟩),
    show helloParagraph.text = "hello" from rfl, wordCountJs_hello]
  norm_num

lemma helloParagraph_wpm_1000 :
    calculateSectionWPM [helloParagraph] 0 1000 = 60 := by
  unfold calculateSectionWPM
  rw [helloParagraph_find]
  change (if helloParagraph.text = "" ∨ (1000 : ℤ) = 0 then 0
    else round ((wordCountJs helloParagraph.text : ℚ) /
      (((1000 : ℤ) : ℚ) / 60000))) = 60
  rw [if_neg (by rw [not_or]; exact ⟨by decide, by norm_num⟩),
    show helloParagraph.text = "hello" from rfl, wordCountJs_hello]
  norm_num

/-- C7 counterexample: on the run enter@0, leave@500, re-enter@1000,
leave@1000, the second close has a dwell delta of 0, yet the classifier is
still invoked (the source gates the invocation on `wpm > 0`, computed from
the accumulated totalTime, not on `dwell > 0`): the invocation list contains
the triple `(0, 120, 0)`, whose dwell component is not positive. -/
theorem classifier_dwell_zero_counterexample :
    (runEvents [helloParagraph] 0
      [(true, 0), (false, 500), (true, 1000), (false, 1000)]).2 =
      [(0, 120, 500), (0, 120, 0)] ∧
    ¬ (0 : ℤ) < 0 := by
  refine ⟨?_, by norm_num⟩
  norm_num [runEvents, startSectionTiming, endSectionTiming, endStep,
    helloParagraph_wpm_500]
  simp only [Function.comp_def, List.filterMap_cons, List.filterMap_nil]
  norm_num [endStep, helloParagraph_wpm_500]

/-- C7 amended: an interval close forwards an invocation to the classifier
iff the wpm computed from the unit's text and the new accumulated
`totalTime` is positive (`wpm > 0`, not `dwell > 0`); every invocation
carries its interval's own dwell delta `now - startTime`.  In the scenario
enter@0, leave@500, re-enter@1000, leave@1500 on a unit with loaded non-empty
text there are exactly two invocations, each with dwell 500, and the final
`totalTime` is 1000. -/
theorem classifier_invocation_gating (P : List Paragraph)
    (timings : List SectionTimingData) (idx : Nat) (now : ℤ) :
    (endSectionTiming P timings idx now).2 =
      timings.filterMap (fun st =>
        if st.paragraphIndex = idx ∧ st.isVisible = true ∧
            0 < calculateSectionWPM P idx (st.totalTime + (now - st.startTime))
        then some (idx,
          calculateSectionWPM P idx (st.totalTime + (now - st.startTime)),
          now - st.startTime)
        else none) ∧
    (runEvents [helloParagraph] 0
      [(true, 0), (false, 500), (true, 1000), (false, 1500)]).2 =
      [(0, 120, 500), (0, 60, 500)] ∧
    totalOf (runEvents [helloParagraph] 0
      [(true, 0), (false, 500), (true, 1000), (false, 1500)]).1 0 = 1000 := by
  refine ⟨?_, ?_, ?_⟩
  · show ((timings.map (endStep P idx now)).filterMap Prod.snd) = _
    rw [List.filterMap_map]
    exact List.filterMap_congr (fun st _ => endStep_snd P idx now st)
  · norm_num [runEvents, startSectionTiming, endSectionTiming, endStep,
      helloParagraph_wpm_500]
    simp only [Function.comp_def, List.filterMap_cons, List.filterMap_nil]
    norm_num [endStep, helloParagraph_wpm_500, helloParagraph_wpm_1000]
  · norm_num [runEvents, startSectionTiming, endSectionTiming, endStep,
      helloParagraph_wpm_500, helloParagraph_wpm_1000, totalOf, List.find?]

/-- C8: a leave event for a unit with no matching open interval — every
timing entry for that index has `isVisible = false`, including the case
where no entry for the index exists at all — is a no-op: the timing list is
returned unchanged and no classifier invocation is fired. -/
theorem endSectionTiming_noop (P : List Paragraph)
    (timings : List SectionTimingData) (idx : Nat) (now : ℤ)
    (h : ∀ st ∈ timings, st.paragraphIndex = idx → st.isVisible = false) :
    endSectionTiming P timings idx now = (timings, []) := by
  have hstep : ∀ st ∈ timings, endStep P idx now st = (st, none) := by
    intro st hst
    unfold endStep
    rw [if_neg]
    rintro ⟨he, hv⟩
    rw [h st hst he] at hv
    exact Bool.false_ne_true hv
  unfold endSectionTiming
  have hmap : timings.map (endStep P idx now) =
      timings.map (fun st => (st, none)) :=
    List.map_congr_left hstep
  rw [hmap]
  simp [List.map_map, Function.comp_def]

/-- C8 witness: a leave for index 0 when the only entry for index 0 is
closed, and a leave for an index with no entry at all, both leave the ledger
unchanged with no invocations. -/
theorem endSectionTiming_noop_witness :
    endSectionTiming [] [closedTiming7] 0 999 = ([closedTiming7], []) ∧
    endSectionTiming [] [closedTiming7] 3 999 = ([closedTiming7], []) := by
  constructor
  · exact endSectionTiming_noop [] [closedTiming7] 0 999 (by decide)
  · exact endSectionTiming_noop [] [closedTiming7] 3 999 (by decide)

/-- C10 counterexample: with a zero time delta (now equal to the last
timestamp) and an offset delta of 5, the recorded sample's speed is 0, while
the claimed formula `|offset - lastOffset| / max(1, now - lastTimestamp)`
gives 5. -/
theorem scrollSpeed_zero_delta_counterexample :
    (trackScrollEvent ⟨[], 100, 0⟩ 100 5).scrollEvents =
      [{ timestamp := 100, scrollTop := 5, scrollSpeed := 0 }] ∧
    specScrollSpeed 0 5 100 100 = 5 ∧
    (0 : ℚ) ≠ 5 := by
  refine ⟨?_, ?_, by norm_num⟩
  · norm_num [trackScrollEvent, jsSliceLast]
  · norm_num [specScrollSpeed]

/-- C10 amended: the recorded speed is
`|offset - lastOffset| / (now - lastTimestamp)` when the time delta is
positive and 0 otherwise (not the absolute offset delta at a zero delta);
for a positive time delta this agrees with the spec formula
`|offset - lastOffset| / max(1, now - lastTimestamp)`; and
`lastScrollTime` / `lastScrollTop` are updated unconditionally. -/
theorem trackScrollEvent_speed (st : ScrollTrackerState) (now : ℤ)
    (top : ℚ) :
    (trackScrollEvent st now top).lastScrollTime = now ∧
    (trackScrollEvent st now top).lastScrollTop = top ∧
    (trackScrollEvent st now top).scrollEvents.getLast? =
      some { timestamp := now, scrollTop := top,
             scrollSpeed :=
               if 0 < now - st.lastScrollTime then
                 |top - st.lastScrollTop| / ((now - st.lastScrollTime : ℤ) : ℚ)
               else 0 } ∧
    (0 < now - st.lastScrollTime →
      (trackScrollEvent st now top).scrollEvents.getLast? =
        some { timestamp := now, scrollTop := top,
               scrollSpeed :=
                 specScrollSpeed st.lastScrollTop top st.lastScrollTime now }) := by
  refine ⟨rfl, rfl, by simp [trackScrollEvent], ?_⟩
  intro hpos
  have hmax : max (1 : ℤ) (now - st.lastScrollTime) = now - st.lastScrollTime :=
    max_eq_right hpos
  simp [trackScrollEvent, specScrollSpeed, hmax, if_pos hpos]
  intro hle
  omega

/-- C10 amended witness: the amended statement at a concrete call with a
positive time delta. -/
theorem trackScrollEvent_speed_witness :
    (trackScrollEvent ⟨[], 0, 0⟩ 5 3).lastScrollTime = 5 ∧
    (trackScrollEvent ⟨[], 0, 0⟩ 5 3).lastScrollTop = 3 ∧
    (trackScrollEvent ⟨[], 0, 0⟩ 5 3).scrollEvents.getLast? =
      some { timestamp := 5, scrollTop := 3,
             scrollSpeed := specScrollSpeed 0 3 0 5 } := by
  have h := trackScrollEvent_speed ⟨[], 0, 0⟩ 5 3
  exact ⟨h.1, h.2.1, by simpa using h.2.2.2 (by norm_num)⟩

lemma foldl_preserves {α β : Type} (f : β → α → β) (Q : β → Prop)
    (hf : ∀ b a, Q b → Q (f b a)) :
    ∀ (l : List α) (b : β), Q b → Q (l.foldl f b) := by
  intro l
  induction l with
  | nil => intro b hb; exact hb
  | cons a t ih => intro b hb; exact ih (f b a) (hf b a hb)

/-- C9 counterexample: `reloadAdaptiveContent` does not synthesize a
fallback when the fetch fails for a unit with loaded raw text — it leaves the
unit's existing AdaptiveContent (here a summary variant) untouched instead of
replacing it with the full-variant fallback built from the raw text. -/
theorem reloadAdaptiveContent_failure_counterexample :
    reloadAdaptiveContent [loadedParagraph] (fun _ => none) =
      [loadedParagraph] ∧
    loadedParagraph.adaptiveContent = some summaryContent ∧
    summaryContent ≠ fallbackAdaptive loadedParagraph.text analyzedDialogue := by
  refine ⟨by decide, by decide, by decide⟩

/-- C9 amended: the fallback synthesis happens only in the initial load —
`loadParagraph` with a failed adaptive fetch gives the unit the full-variant
AdaptiveContent built from its fetched raw text, empty highlight set and the
analysis's primary type — while `reloadAdaptiveContent` leaves every unit
unchanged when the fetch fails; consequently, if every loaded unit has a
defined AdaptiveContent, that still holds after any reconciliation pass. -/
theorem adaptive_fallback (ps : List Paragraph) (idx : Nat) (text : String)
    (analyzed : AnalyzedParagraph) (fetch : Nat → Option AdaptiveContent) :
    (∀ p ∈ loadParagraph ps idx (some text) (some analyzed) none,
      p.index = idx → p.adaptiveContent =
        some (fallbackAdaptive text analyzed) ∧ p.text = text) ∧
    reloadAdaptiveContent ps (fun _ => none) = ps ∧
    (adaptiveDefined ps → adaptiveDefined (reloadAdaptiveContent ps fetch)) := by
  refine ⟨?_, ?_, ?_⟩
  · intro p hp hidx
    simp only [loadParagraph, List.mem_map] at hp
    obtain ⟨q, hq, rfl⟩ := hp
    by_cases hqi : q.index == idx
    · rw [if_pos hqi]
      exact ⟨rfl, rfl⟩
    · rw [if_neg hqi] at hidx ⊢
      exact absurd (by simpa using hidx) (by simpa using hqi)
  · unfold reloadAdaptiveContent
    exact foldl_preserves _ (fun acc => acc = ps)
      (fun b a hb => hb) _ ps rfl
  · intro hdef
    unfold reloadAdaptiveContent
    apply foldl_preserves _ adaptiveDefined _ _ ps hdef
    intro acc p hacc
    cases hfetch : fetch p.index with
    | none => exact hacc
    | some ac =>
      intro q hq hload herr
      simp only [List.mem_map] at hq
      obtain ⟨r, hr, rfl⟩ := hq
      by_cases hri : r.index == p.index
      · rw [if_pos hri] at hload herr ⊢
        rfl
      · rw [if_neg hri] at hload herr ⊢
        exact hacc r hr hload herr

/-- C9 amended witness: the amended statement at a concrete loaded unit with
a failing fetch. -/
theorem adaptive_fallback_witness :
    reloadAdaptiveContent [loadedParagraph] (fun _ => none) =
      [loadedParagraph] ∧
    adaptiveDefined (reloadAdaptiveContent [loadedParagraph] (fun _ => none)) := by
  have h := adaptive_fallback [loadedParagraph] 0 "raw text" analyzedDialogue
    (fun _ => none)
  refine ⟨h.2.1, h.2.2 ?_⟩
  intro p hp h1 h2
  rw [List.mem_singleton] at hp
  subst hp
  rfl
